import Mathlib

set_option maxRecDepth 20000

/-!
Verification development for the extension resource lifecycle coordinator
(operating system config component) and the shoot maintenance controller.

The coordinator's data model and operations are embedded shallowly: machine
words are `Nat` with explicit `% 2 ^ 32`, times are `Int`, the backing store
is an association list of resources, and fallible operations return `Except`.
-/

/-! ## 32-bit word helpers (Nat with explicit modulus) -/

def M32 : Nat := 4294967296

def xor32 (a b : Nat) : Nat := a ^^^ b

def and32 (a b : Nat) : Nat := a &&& b

def not32 (a : Nat) : Nat := 4294967295 - a % M32

def add32 (a b : Nat) : Nat := (a + b) % M32

def rotr32 (r a : Nat) : Nat := a / 2 ^ r + a % 2 ^ r * 2 ^ (32 - r)

def shr32 (r a : Nat) : Nat := a / 2 ^ r

/-! ## SHA-256 (used by the resource key deriver) -/

def sha256K : List Nat :=
  [1116352408, 1899447441, 3049323471, 3921009573, 961987163, 1508970993,
   2453635748, 2870763221, 3624381080, 310598401, 607225278, 1426881987,
   1925078388, 2162078206, 2614888103, 3248222580, 3835390401, 4022224774,
   264347078, 604807628, 770255983, 1249150122, 1555081692, 1996064986,
   2554220882, 2821834349, 2952996808, 3210313671, 3336571891, 3584528711,
   113926993, 338241895, 666307205, 773529912, 1294757372, 1396182291,
   1695183700, 1986661051, 2177026350, 2456956037, 2730485921, 2820302411,
   3259730800, 3345764771, 3516065817, 3600352804, 4094571909, 275423344,
   430227734, 506948616, 659060556, 883997877, 958139571, 1322822218,
   1537002063, 1747873779, 1955562222, 2024104815, 2227730452, 2361852424,
   2428436474, 2756734187, 3204031479, 3329325298]

def sha256H0 : List Nat :=
  [1779033703, 3144134277, 1013904242, 2773480762, 1359893119,
   2600822924, 528734635, 1541459225]

/-- Big-endian byte rendering of a natural number, `k` bytes wide. -/
def bytesBE : Nat → Nat → List Nat
  | 0, _ => []
  | k + 1, n => bytesBE k (n / 256) ++ [n % 256]

def bytesToWords : List Nat → List Nat
  | b0 :: b1 :: b2 :: b3 :: rest => (((b0 * 256 + b1) * 256 + b2) * 256 + b3) :: bytesToWords rest
  | _ => []

def sha256Pad (msg : List Nat) : List Nat :=
  msg ++ [0x80] ++ List.replicate ((120 - (msg.length + 1) % 64) % 64) 0
      ++ bytesBE 8 (msg.length * 8)

def chunks64 : Nat → List Nat → List (List Nat)
  | 0, _ => []
  | _ + 1, [] => []
  | fuel + 1, l => l.take 64 :: chunks64 fuel (l.drop 64)

def scheduleStep (w : List Nat) (_i : Nat) : List Nat :=
  let n := w.length
  let x15 := w.getD (n - 15) 0
  let x2 := w.getD (n - 2) 0
  let s0 := xor32 (xor32 (rotr32 7 x15) (rotr32 18 x15)) (shr32 3 x15)
  let s1 := xor32 (xor32 (rotr32 17 x2) (rotr32 19 x2)) (shr32 10 x2)
  w ++ [add32 (add32 (w.getD (n - 16) 0) s0) (add32 (w.getD (n - 7) 0) s1)]

def sha256Schedule (block : List Nat) : List Nat :=
  (List.range 48).foldl scheduleStep (bytesToWords block)

structure SHAState where
  a : Nat
  b : Nat
  c : Nat
  d : Nat
  e : Nat
  f : Nat
  g : Nat
  h : Nat

def compressStep (st : SHAState) (kw : Nat × Nat) : SHAState :=
  let s1 := xor32 (xor32 (rotr32 6 st.e) (rotr32 11 st.e)) (rotr32 25 st.e)
  let ch := xor32 (and32 st.e st.f) (and32 (not32 st.e) st.g)
  let temp1 := add32 (add32 (add32 st.h s1) (add32 ch kw.1)) kw.2
  let s0 := xor32 (xor32 (rotr32 2 st.a) (rotr32 13 st.a)) (rotr32 22 st.a)
  let maj := xor32 (xor32 (and32 st.a st.b) (and32 st.a st.c)) (and32 st.b st.c)
  ⟨add32 temp1 (add32 s0 maj), st.a, st.b, st.c, add32 st.d temp1, st.e, st.f, st.g⟩

def compressBlock (hs : List Nat) (block : List Nat) : List Nat :=
  let ws := sha256Schedule block
  let st := (sha256K.zip ws).foldl compressStep
    ⟨hs.getD 0 0, hs.getD 1 0, hs.getD 2 0, hs.getD 3 0, hs.getD 4 0, hs.getD 5 0, hs.getD 6 0, hs.getD 7 0⟩
  [add32 (hs.getD 0 0) st.a, add32 (hs.getD 1 0) st.b, add32 (hs.getD 2 0) st.c,
   add32 (hs.getD 3 0) st.d, add32 (hs.getD 4 0) st.e, add32 (hs.getD 5 0) st.f,
   add32 (hs.getD 6 0) st.g, add32 (hs.getD 7 0) st.h]

def sha256Words (msg : List Nat) : List Nat :=
  let padded := sha256Pad msg
  (chunks64 padded.length padded).foldl compressBlock sha256H0

def hexChar (n : Nat) : Char :=
  if n < 10 then Char.ofNat (48 + n) else Char.ofNat (87 + n)

def hexOfWord (w : Nat) : List Char :=
  (List.range 8).map (fun i => hexChar (w / 16 ^ (7 - i) % 16))

/-- UTF-8 encoding of a character as a list of byte values. -/
def utf8Bytes (c : Char) : List Nat :=
  let n := c.toNat
  if n < 0x80 then [n]
  else if n < 0x800 then [0xc0 + n / 64, 0x80 + n % 64]
  else if n < 0x10000 then [0xe0 + n / 4096, 0x80 + n / 64 % 64, 0x80 + n % 64]
  else [0xf0 + n / 262144, 0x80 + n / 4096 % 64, 0x80 + n / 64 % 64, 0x80 + n % 64]

def strBytes (s : String) : List Nat := (s.data.map utf8Bytes).flatten

/-- Hex digest of the SHA-256 hash of a string (`utils.ComputeSHA256Hex`). -/
def computeSHA256Hex (s : String) : String :=
  ⟨((sha256Words (strBytes s)).map hexOfWord).flatten⟩

def strTake (s : String) (n : Nat) : String := ⟨s.data.take n⟩

/-! ## Resource key deriver -/

structure SemVer where
  major : Nat
  minor : Nat
  patch : Nat
deriving DecidableEq

/-- Modelled from the spec: the resource key deriver `Key` of the coordinator
(its implementation file is not in the repository snapshot; the test asserts
`Key("foo", 1.2.3) = "cloud-config-foo-77ac3"` and the same `77ac3` digest for
the pools `worker1` and `worker2`, so the digest is computed from the
major/minor Kubernetes version string). Returns the empty string when no
version is supplied. -/
def Key (workerName : String) (kubernetesVersion : Option SemVer) : String :=
  match kubernetesVersion with
  | none => ""
  | some v =>
    "cloud-config-" ++ workerName ++ "-"
      ++ strTake (computeSHA256Hex (toString v.major ++ "." ++ toString v.minor)) 5

/-! ## Base64 encoding (`utils.EncodeBase64`, standard alphabet with padding) -/

def base64Char (n : Nat) : Char :=
  if n < 26 then Char.ofNat (65 + n)
  else if n < 52 then Char.ofNat (97 + (n - 26))
  else if n < 62 then Char.ofNat (48 + (n - 52))
  else if n = 62 then '+' else '/'

def base64Groups : List Nat → List Char
  | [] => []
  | [b0] => [base64Char (b0 / 4), base64Char (b0 % 4 * 16), '=', '=']
  | [b0, b1] => [base64Char (b0 / 4), base64Char (b0 % 4 * 16 + b1 / 16), base64Char (b1 % 16 * 4), '=']
  | b0 :: b1 :: b2 :: rest =>
    base64Char (b0 / 4) :: base64Char (b0 % 4 * 16 + b1 / 16) ::
      base64Char (b1 % 16 * 4 + b2 / 64) :: base64Char (b2 % 64) :: base64Groups rest

def encodeBase64 (s : String) : String := ⟨base64Groups (strBytes s)⟩

/-! ## Data model of the managed custom resource -/

structure OSCUnit where
  name : String
  content : Option String
deriving DecidableEq

structure FileContentInline where
  encoding : String
  data : String
deriving DecidableEq

structure OSCFile where
  path : String
  permissions : Option Nat
  content : Option FileContentInline
deriving DecidableEq

inductive OSCPurpose
  | provision
  | reconcile
deriving DecidableEq

structure CRIConfig where
  name : String
deriving DecidableEq

inductive LastOpType
  | create
  | reconcile
  | migrate
  | delete
  | restore
deriving DecidableEq

inductive LastOpState
  | processing
  | succeeded
  | error
deriving DecidableEq

structure LastOperation where
  type : Option LastOpType
  state : LastOpState
deriving DecidableEq

structure SecretRef where
  name : String
  ns : String
deriving DecidableEq

structure OSCStatus where
  lastOperation : Option LastOperation
  lastError : Option String
  cloudConfigSecretRef : Option SecretRef
  command : Option String
  units : List String
deriving DecidableEq

def OSCStatus.empty : OSCStatus := ⟨none, none, none, none, []⟩

structure OperatingSystemConfig where
  name : String
  ns : String
  annotations : List (String × String)
  deletionTimestamp : Option Int
  typeName : String
  providerConfig : Option String
  purpose : OSCPurpose
  criConfig : Option CRIConfig
  reloadConfigFilePath : Option String
  units : List OSCUnit
  files : List OSCFile
  status : OSCStatus
deriving DecidableEq

structure Secret where
  name : String
  ns : String
  data : List (String × String)
deriving DecidableEq

/-! ## Annotation protocol constants and helpers -/

def gardenerOperation : String := "gardener.cloud/operation"

def gardenerTimestamp : String := "gardener.cloud/timestamp"

def operationReconcile : String := "reconcile"

def operationMigrate : String := "migrate"

def criNameDocker : String := "docker"

def cloudConfigSecretDataKey : String := "cloud_config"

def ccdUnitName : String := "cloud-config-downloader.service"

def ccdFilePath : String := "/etc/systemd/system/cloud-config-downloader.service"

def downloadsPath : String := "/var/lib/cloud-config-downloader/downloads/cloud_config"

def getAnn (l : List (String × String)) (k : String) : Option String :=
  (l.find? (fun p => p.1 == k)).map Prod.snd

def setAnn (l : List (String × String)) (k v : String) : List (String × String) :=
  if (l.find? (fun p => p.1 == k)).isSome then
    l.map (fun p => if p.1 == k then (k, v) else p)
  else l ++ [(k, v)]

def timeToString (t : Int) : String := toString t

def digitsToNat : List Char → Nat → Option Nat
  | [], acc => some acc
  | c :: cs, acc =>
    if '0' ≤ c ∧ c ≤ '9' then digitsToNat cs (acc * 10 + (c.toNat - 48)) else none

/-- Parse the decimal rendering of a time back into a time value. -/
def parseTime (s : String) : Option Int :=
  match s.data with
  | [] => none
  | '-' :: rest =>
    if rest.isEmpty then none else (digitsToNat rest 0).map (fun n => -(n : Int))
  | l => (digitsToNat l 0).map (fun n => (n : Int))

/-! ## Worker pools, values and the generator interface -/

structure Worker where
  name : String
  machineImageName : String
  machineImageProviderConfig : Option String
  criName : Option String
  kubeletDataVolumeName : Option String
deriving DecidableEq

structure OriginalValues where
  caBundle : Option String
  clusterDNSAddress : String
  clusterDomain : String
  images : String
  kubeletCACertificate : String
  kubeletCLIFlags : String
  kubeletConfigParameters : String
  sshPublicKeys : List String
deriving DecidableEq

structure Values where
  ns : String
  workers : List Worker
  kubernetesVersion : Option SemVer
  apiServerURL : String
  originalValues : OriginalValues
deriving DecidableEq

structure ComponentsContext where
  caBundle : Option String
  clusterDNSAddress : String
  clusterDomain : String
  criName : String
  images : String
  kubeletCACertificate : String
  kubeletCLIFlags : String
  kubeletConfigParameters : String
  kubeletDataVolumeName : Option String
  kubernetesVersion : SemVer
  sshPublicKeys : List String
deriving DecidableEq

abbrev ConfigOutput := List OSCUnit × List OSCFile

abbrev DownloaderConfigFn := String → String → Except String ConfigOutput

abbrev OriginalConfigFn := ComponentsContext → Except String ConfigOutput

def effectiveCRIName (w : Worker) : String := w.criName.getD criNameDocker

def mkComponentsContext (v : Values) (kv : SemVer) (w : Worker) : ComponentsContext :=
  { caBundle := v.originalValues.caBundle
    clusterDNSAddress := v.originalValues.clusterDNSAddress
    clusterDomain := v.originalValues.clusterDomain
    criName := effectiveCRIName w
    images := v.originalValues.images
    kubeletCACertificate := v.originalValues.kubeletCACertificate
    kubeletCLIFlags := v.originalValues.kubeletCLIFlags
    kubeletConfigParameters := v.originalValues.kubeletConfigParameters
    kubeletDataVolumeName := w.kubeletDataVolumeName
    kubernetesVersion := kv
    sshPublicKeys := v.originalValues.sshPublicKeys }

/-! ## Resource builder -/

def downloaderName (kv : SemVer) (w : Worker) : String :=
  Key w.name (some kv) ++ "-downloader"

def originalName (kv : SemVer) (w : Worker) : String :=
  Key w.name (some kv) ++ "-original"

def oscNames (kv : SemVer) (w : Worker) : List String :=
  [downloaderName kv w, originalName kv w]

/-- Content of the downloader activation unit, extracted from the downloader
generator's unit list. -/
def ccdUnitContentOf (dUnits : List OSCUnit) : Option String :=
  (dUnits.find? (fun u => u.name == ccdUnitName)).bind OSCUnit.content

/-- The synthesized file embedding the downloader activation unit, base64
encoded at a fixed path with permission bits `0644`. -/
def ccdFiles (dUnits : List OSCUnit) : List OSCFile :=
  match ccdUnitContentOf dUnits with
  | none => []
  | some c => [⟨ccdFilePath, some 0o644, some ⟨"b64", encodeBase64 c⟩⟩]

def reconcileAnnotations (now : Int) : List (String × String) :=
  [(gardenerOperation, operationReconcile), (gardenerTimestamp, timeToString now)]

def mkDownloaderOSC (v : Values) (kv : SemVer) (w : Worker) (now : Int)
    (dOut : ConfigOutput) : OperatingSystemConfig :=
  { name := downloaderName kv w
    ns := v.ns
    annotations := reconcileAnnotations now
    deletionTimestamp := none
    typeName := w.machineImageName
    providerConfig := w.machineImageProviderConfig
    purpose := .provision
    criConfig := w.criName.map (fun c => ⟨c⟩)
    reloadConfigFilePath := none
    units := dOut.1
    files := dOut.2
    status := OSCStatus.empty }

def mkOriginalOSC (v : Values) (kv : SemVer) (w : Worker) (now : Int)
    (dOut oOut : ConfigOutput) : OperatingSystemConfig :=
  { name := originalName kv w
    ns := v.ns
    annotations := reconcileAnnotations now
    deletionTimestamp := none
    typeName := w.machineImageName
    providerConfig := w.machineImageProviderConfig
    purpose := .reconcile
    criConfig := w.criName.map (fun c => ⟨c⟩)
    reloadConfigFilePath := some downloadsPath
    units := oOut.1
    files := oOut.2 ++ dOut.2 ++ ccdFiles dOut.1
    status := OSCStatus.empty }

/-- Modelled from the spec: the resource builder of the coordinator (its
implementation file is not in the repository snapshot). Invokes the
downloader generator with the derived key and API server URL and the original
generator with the aggregated runtime context, and assembles the resource
pair; the original resource's files are the original generator's files,
followed by the downloader's files, followed by the synthesized activation
unit file. -/
def buildWorkerOSCs (dlFn : DownloaderConfigFn) (origFn : OriginalConfigFn)
    (v : Values) (kv : SemVer) (now : Int) (w : Worker) :
    Except String (OperatingSystemConfig × OperatingSystemConfig) :=
  match dlFn (Key w.name (some kv)) v.apiServerURL with
  | .error e => .error e
  | .ok dOut =>
    match origFn (mkComponentsContext v kv w) with
    | .error e => .error e
    | .ok oOut => .ok (mkDownloaderOSC v kv w now dOut, mkOriginalOSC v kv w now dOut oOut)

/-! ## Deploy orchestrator -/

def getOSC (store : List OperatingSystemConfig) (name : String) :
    Option OperatingSystemConfig :=
  store.find? (fun o => o.name == name)

/-- Create-or-update against the store: full replace of an existing resource
with the same name, otherwise append. -/
def upsertOSC (store : List OperatingSystemConfig) (o : OperatingSystemConfig) :
    List OperatingSystemConfig :=
  if store.any (fun x => x.name == o.name) then
    store.map (fun x => if x.name == o.name then o else x)
  else store ++ [o]

/-- Modelled from the spec: the deploy orchestrator (its implementation file
is not in the repository snapshot). For every worker pool it builds the
resource pair, stamps the `reconcile` directive and the timestamp annotation
with the injected clock value, and performs a create-or-update per resource. -/
def buildAllOSCs (dlFn : DownloaderConfigFn) (origFn : OriginalConfigFn)
    (v : Values) (kv : SemVer) (now : Int) :
    List Worker → Except String (List (OperatingSystemConfig × OperatingSystemConfig))
  | [] => .ok []
  | w :: ws =>
    match buildWorkerOSCs dlFn origFn v kv now w with
    | .error e => .error e
    | .ok p =>
      match buildAllOSCs dlFn origFn v kv now ws with
      | .error e => .error e
      | .ok ps => .ok (p :: ps)

def applyPairs (store : List OperatingSystemConfig)
    (pairs : List (OperatingSystemConfig × OperatingSystemConfig)) :
    List OperatingSystemConfig :=
  pairs.foldl (fun s p => upsertOSC (upsertOSC s p.1) p.2) store

def Deploy (dlFn : DownloaderConfigFn) (origFn : OriginalConfigFn) (v : Values)
    (now : Int) (store : List OperatingSystemConfig) :
    Except String (List OperatingSystemConfig) :=
  match v.kubernetesVersion with
  | none => .error "kubernetes version is not set"
  | some kv =>
    match buildAllOSCs dlFn origFn v kv now v.workers with
    | .error e => .error e
    | .ok pairs => .ok (applyPairs store pairs)

/-! ## Readiness waiter -/

inductive ResourceWaitOutcome
  | failed (msg : String)
  | missing
  | pending
  | noCloudConfig
  | ready
deriving DecidableEq

def lookupStamp (stamps : List (String × Int)) (name : String) : Option Int :=
  (stamps.find? (fun p => p.1 == name)).map Prod.snd

/-- The timestamp annotation, parsed back, must be at or after the timestamp
stamped at deploy time (when one was recorded for the resource). -/
def checkTimestamp (stamps : List (String × Int)) (o : OperatingSystemConfig) : Bool :=
  match lookupStamp stamps o.name with
  | none => true
  | some stamp =>
    match getAnn o.annotations gardenerTimestamp with
    | none => false
    | some s =>
      match parseTime s with
      | none => false
      | some t => stamp ≤ t

/-- Per-resource readiness verdict: a resource with a last error is failed
immediately; otherwise it must carry a fresh timestamp annotation, report a
succeeded last operation and publish the cloud-config secret reference. -/
def checkOSCResource (stamps : List (String × Int)) (o : OperatingSystemConfig) :
    ResourceWaitOutcome :=
  match o.status.lastError with
  | some desc => .failed ("error during reconciliation: " ++ desc)
  | none =>
    if checkTimestamp stamps o then
      match o.status.lastOperation with
      | some op =>
        if op.state = .succeeded then
          match o.status.cloudConfigSecretRef with
          | some _ => .ready
          | none => .noCloudConfig
        else .pending
      | none => .pending
    else .pending

def waitOutcomes (v : Values) (kv : SemVer) (stamps : List (String × Int))
    (store : List OperatingSystemConfig) : List ResourceWaitOutcome :=
  ((v.workers.map (oscNames kv)).flatten).map (fun n =>
    match getOSC store n with
    | none => ResourceWaitOutcome.missing
    | some o => checkOSCResource stamps o)

def firstFailureMsg : List ResourceWaitOutcome → Option String
  | [] => none
  | .failed m :: _ => some m
  | _ :: rest => firstFailureMsg rest

/-- Modelled from the spec: the readiness waiter (its implementation file is
not in the repository snapshot), as the verdict of one poll of the full pair
set: a failed resource surfaces its reconciliation error immediately, missing
resources surface a not-found error, resources with stale timestamps or
unfinished operations keep the wait pending until the timeout error, and a
succeeded resource without published cloud-config information surfaces an
incomplete-status error. -/
def WaitCore (v : Values) (kv : SemVer) (stamps : List (String × Int))
    (store : List OperatingSystemConfig) : Except String Unit :=
  match firstFailureMsg (waitOutcomes v kv stamps store) with
  | some msg => .error msg
  | none =>
    if ResourceWaitOutcome.missing ∈ waitOutcomes v kv stamps store then
      .error "extension resources not found"
    else if ResourceWaitOutcome.pending ∈ waitOutcomes v kv stamps store then
      .error "timeout while waiting for extension resources to become ready"
    else if ResourceWaitOutcome.noCloudConfig ∈ waitOutcomes v kv stamps store then
      .error "no cloud config information provided in status"
    else .ok ()

def Wait (v : Values) (stamps : List (String × Int))
    (store : List OperatingSystemConfig) : Except String Unit :=
  match v.kubernetesVersion with
  | none => .error "kubernetes version is not set"
  | some kv => WaitCore v kv stamps store

/-! ## Result projector -/

structure Data where
  content : String
  command : Option String
  units : List String
deriving DecidableEq

structure OperatingSystemConfigs where
  downloader : Data
  original : Data
deriving DecidableEq

def getSecret (secrets : List Secret) (ref : SecretRef) : Option Secret :=
  secrets.find? (fun s => s.name == ref.name && s.ns == ref.ns)

def secretValue (s : Secret) (k : String) : Option String :=
  (s.data.find? (fun p => p.1 == k)).map Prod.snd

/-- Rendered content of a resource: the `cloud_config` data key of the secret
referenced from the resource status. -/
def resolvedContent (secrets : List Secret) (o : OperatingSystemConfig) :
    Option String :=
  (o.status.cloudConfigSecretRef.bind (getSecret secrets)).bind
    (fun s => secretValue s cloudConfigSecretDataKey)

def extractOSCData (secrets : List Secret) (o : OperatingSystemConfig) : Option Data :=
  match resolvedContent secrets o with
  | none => none
  | some content => some ⟨content, o.status.command, o.status.units⟩

def workerData (store : List OperatingSystemConfig) (secrets : List Secret)
    (kv : SemVer) (w : Worker) : Option OperatingSystemConfigs :=
  match getOSC store (downloaderName kv w) with
  | none => none
  | some dosc =>
    match getOSC store (originalName kv w) with
    | none => none
    | some oosc =>
      match extractOSCData secrets dosc, extractOSCData secrets oosc with
      | some dd, some od => some ⟨dd, od⟩
      | _, _ => none

/-- Modelled from the spec: the result projector (its implementation file is
not in the repository snapshot). Resolves each pool's resource pair and the
referenced secrets into a map keyed by worker pool name; a pool whose data
cannot be resolved is silently omitted. -/
def WorkerNameToOperatingSystemConfigsMap (v : Values)
    (store : List OperatingSystemConfig) (secrets : List Secret) :
    List (String × OperatingSystemConfigs) :=
  match v.kubernetesVersion with
  | none => []
  | some kv =>
    v.workers.filterMap (fun w =>
      (workerData store secrets kv w).map (fun d => (w.name, d)))

def lookupByName (m : List (String × OperatingSystemConfigs)) (name : String) :
    Option OperatingSystemConfigs :=
  (m.find? (fun p => p.1 == name)).map Prod.snd

/-! ## Cleanup waiter -/

/-- Modelled from the spec: the cleanup waiter (its implementation file is not
in the repository snapshot). It lists the resources of the managed kind in
the namespace and waits only on those whose deletion timestamp is set, as
exercised by the tests; such a resource still present is reported as still
present. -/
def WaitCleanup (v : Values) (store : List OperatingSystemConfig) :
    Except String Unit :=
  match (store.filter (fun o => o.ns == v.ns)).find? (fun o => o.deletionTimestamp.isSome) with
  | some o => .error (o.ns ++ "/" ++ o.name ++ " is still present")
  | none => .ok ()

/-! ## Migration orchestrator and waiter -/

def annotateMigrate (now : Int) (o : OperatingSystemConfig) : OperatingSystemConfig :=
  { o with annotations := (setAnn (setAnn o.annotations gardenerOperation operationMigrate)
      gardenerTimestamp (timeToString now)) }

/-- Modelled from the spec: the migration orchestrator (its implementation
file is not in the repository snapshot). It lists the existing resources of
the managed kind in the namespace and stamps each with the `migrate`
directive; an absent resource is simply not listed, so absence is success. -/
def Migrate (v : Values) (now : Int) (store : List OperatingSystemConfig) :
    Except String (List OperatingSystemConfig) :=
  .ok (store.map (fun o => if o.ns == v.ns then annotateMigrate now o else o))

def migrateSucceeded (o : OperatingSystemConfig) : Bool :=
  match o.status.lastOperation with
  | some op => op.type == some .migrate && op.state == .succeeded
  | none => false

/-- Modelled from the spec: the migration waiter (its implementation file is
not in the repository snapshot), as the verdict of one poll: every resource
still present must report a last operation of type `Migrate` in state
`Succeeded`; missing resources are treated as satisfied. -/
def WaitMigrate (v : Values) (store : List OperatingSystemConfig) :
    Except String Unit :=
  match (store.filter (fun o => o.ns == v.ns)).find? (fun o => !migrateSucceeded o) with
  | some o => .error (o.ns ++ "/" ++ o.name ++ " is not Migrate=Succeeded")
  | none => .ok ()

/-! ## Stale resource reaper -/

def wantedOSCNames (v : Values) : List String :=
  match v.kubernetesVersion with
  | none => []
  | some kv => (v.workers.map (oscNames kv)).flatten

/-- Modelled from the spec: the stale resource reaper (its implementation
file is not in the repository snapshot). It lists all resources of the
managed kind in the namespace and deletes every resource whose name is not in
the currently desired set. -/
def DeleteStaleResources (v : Values) (store : List OperatingSystemConfig) :
    List OperatingSystemConfig :=
  store.filter (fun o => !(o.ns == v.ns) || decide (o.name ∈ wantedOSCNames v))

/-! ## Shoot maintenance controller (`shoot_maintenance_control.go`) -/

structure Shoot where
  name : String
  ns : String
  deletionTimestamp : Option Int
  annotations : List (String × String)
  kubernetesVersion : String
deriving DecidableEq

/-- `ExpirationDateExpired` returns if now is equal or after the given
expiration date (`nil` timestamps never expire). Times are `Int`, the single
injected `now` standing for `time.Now().UTC()`. -/
def ExpirationDateExpired (now : Int) (timestamp : Option Int) : Bool :=
  match timestamp with
  | none => false
  | some t => decide (t < now) || decide (now = t)

structure ReconcileResult where
  requeueAfter : Option Int
deriving DecidableEq

def getShoot (store : List Shoot) (ns name : String) : Option Shoot :=
  store.find? (fun s => s.ns == ns && s.name == name)

/-- External collaborators of the maintenance reconciler that the guard under
scrutiny short-circuits: the requeue-interval computation, the
maintenance-window predicate and the maintenance update itself. -/
structure MaintenanceDeps where
  requeueAfterDuration : Shoot → Int
  mustMaintainNow : Shoot → Bool
  maintain : List Shoot → Shoot → Except String (List Shoot)

/-- The maintenance reconciler: a missing shoot stops reconciling; a shoot
marked for deletion is skipped with an empty result; otherwise the requeue
interval is computed and maintenance runs when due, updating the store. -/
def shootMaintenanceReconcile (deps : MaintenanceDeps) (store : List Shoot)
    (ns name : String) : Except String (ReconcileResult × List Shoot) :=
  match getShoot store ns name with
  | none => .ok (⟨none⟩, store)
  | some shoot =>
    if shoot.deletionTimestamp.isSome then
      .ok (⟨none⟩, store)
    else
      let requeueAfter := deps.requeueAfterDuration shoot
      if !deps.mustMaintainNow shoot then
        .ok (⟨some requeueAfter⟩, store)
      else
        match deps.maintain store shoot with
        | .ok store2 => .ok (⟨some requeueAfter⟩, store2)
        | .error e => .error e

/-! ## Shared proof helpers -/

theorem strAppendAssoc (a b c : String) : a ++ b ++ c = a ++ (b ++ c) := by
  cases a with
  | mk la =>
    cases b with
    | mk lb =>
      cases c with
      | mk lc =>
        show String.mk ((la ++ lb) ++ lc) = String.mk (la ++ (lb ++ lc))
        rw [List.append_assoc]

/-! ## Claim C9 -/

/-- C9: `ExpirationDateExpired` returns `false` for a `nil` timestamp, and for
a supplied timestamp returns `true` exactly when the current time is equal to
or after it. -/
theorem expirationDateExpired_spec :
    (∀ now : Int, ExpirationDateExpired now none = false) ∧
    ∀ now t : Int, ExpirationDateExpired now (some t) = decide (t ≤ now) := by
  refine ⟨fun _ => rfl, fun now t => ?_⟩
  show (decide (t < now) || decide (now = t)) = decide (t ≤ now)
  by_cases h1 : t < now
  · simp [h1, le_of_lt h1]
  · by_cases h2 : now = t
    · simp [h2]
    · have h3 : ¬t ≤ now := by omega
      simp [h1, h2, h3]

/-! ## Claim C10 -/

/-- C10: the maintenance reconciler returns success immediately for a shoot
marked for deletion: the store is left unchanged and no requeue interval is
scheduled. -/
theorem reconcile_skips_deleted_shoot (deps : MaintenanceDeps) (store : List Shoot)
    (ns name : String) (shoot : Shoot) (t : Int)
    (hget : getShoot store ns name = some shoot)
    (hdel : shoot.deletionTimestamp = some t) :
    shootMaintenanceReconcile deps store ns name = .ok (⟨none⟩, store) := by
  unfold shootMaintenanceReconcile
  rw [hget]
  simp [hdel]

def mDepsW : MaintenanceDeps :=
  ⟨fun _ => 5, fun _ => true, fun s _ => .ok s⟩

def shootW : Shoot := ⟨"s1", "garden", some 3, [], "1.20.1"⟩

/-- Witness for C10 at a concrete deleted shoot. -/
theorem reconcile_skips_deleted_shoot_witness :
    getShoot [shootW] "garden" "s1" = some shootW ∧
    shootW.deletionTimestamp = some 3 ∧
    shootMaintenanceReconcile mDepsW [shootW] "garden" "s1" = .ok (⟨none⟩, [shootW]) :=
  ⟨rfl, rfl, reconcile_skips_deleted_shoot mDepsW [shootW] "garden" "s1" shootW 3 rfl rfl⟩

/-! ## Claim C3 -/

/-- C3: `Key` of a pool name with no version is empty; `Key` is deterministic;
and with version 1.2.3 it is `cloud-config-<poolName>-77ac3` for every pool
name (the five character digest is derived from the major/minor version). -/
theorem key_spec :
    (∀ p : String, Key p none = "") ∧
    (∀ (p : String) (v : Option SemVer), Key p v = Key p v) ∧
    ∀ p : String, Key p (some ⟨1, 2, 3⟩) = "cloud-config-" ++ p ++ "-77ac3" := by
  refine ⟨fun _ => rfl, fun _ _ => rfl, fun p => ?_⟩
  have hs : strTake (computeSHA256Hex (toString (1 : Nat) ++ "." ++ toString (2 : Nat))) 5
      = "77ac3" := by decide
  show "cloud-config-" ++ p ++ "-"
      ++ strTake (computeSHA256Hex (toString (1 : Nat) ++ "." ++ toString (2 : Nat))) 5 = _
  rw [hs, strAppendAssoc ("cloud-config-" ++ p) "-" "77ac3"]
  have hd : ("-" : String) ++ "77ac3" = "-77ac3" := rfl
  rw [hd]

/-! ## Concrete fixtures shared by the claim witnesses -/

def ovW : OriginalValues :=
  ⟨some "ca-bundle", "cluster-dns", "cluster-domain", "images", "kubelet-ca", "", "",
    ["ssh-public-key", "ssh-public-key-b"]⟩

def kvW : SemVer := ⟨1, 2, 3⟩

def wk1 : Worker := ⟨"worker1", "type1", some "pc1", none, some "foo"⟩

def wk2 : Worker := ⟨"worker2", "type2", none, some "containerd", some "foo"⟩

def vW : Values := ⟨"test-namespace", [wk1, wk2], some kvW, "https://url-to-apiserver", ovW⟩

def vEmpty : Values := ⟨"test-namespace", [], none, "", ovW⟩

def oscBase : OperatingSystemConfig :=
  ⟨"osc1", "test-namespace", [], none, "type1", none, .provision, none, none, [], [],
    OSCStatus.empty⟩

/-! ## Claim C6 -/

/-- C6 (amended): `WaitCleanup` succeeds when no resource of the managed kind
remains; a resource still present with a deletion timestamp set fails the wait
with a message ending in `is still present`; a resource present without a
deletion timestamp is skipped by the deletion-timestamp predicate, so
`WaitCleanup` succeeds while only such resources exist. -/
theorem waitCleanup_spec :
    (∀ v : Values, WaitCleanup v [] = .ok ()) ∧
    (∀ (v : Values) (store : List OperatingSystemConfig),
      (∀ o ∈ store, o.deletionTimestamp = none) → WaitCleanup v store = .ok ()) ∧
    ∀ (v : Values) (store : List OperatingSystemConfig) (o : OperatingSystemConfig) (t : Int),
      o ∈ store → o.ns = v.ns → o.deletionTimestamp = some t →
      ∃ msg pre, WaitCleanup v store = .error msg ∧ msg = pre ++ " is still present" := by
  refine ⟨fun _ => rfl, ?_, ?_⟩
  · intro v store h
    unfold WaitCleanup
    have hfind : (store.filter (fun o => o.ns == v.ns)).find?
        (fun o => o.deletionTimestamp.isSome) = none := by
      rw [List.find?_eq_none]
      intro x hx
      simp [h x (List.mem_filter.1 hx).1]
    rw [hfind]
  · intro v store o t hmem hns hdel
    unfold WaitCleanup
    cases hfind : (store.filter (fun o => o.ns == v.ns)).find?
        (fun o => o.deletionTimestamp.isSome) with
    | none =>
      exfalso
      rw [List.find?_eq_none] at hfind
      exact hfind o (List.mem_filter.2 ⟨hmem, by simp [hns]⟩) (by simp [hdel])
    | some o2 => exact ⟨_, o2.ns ++ "/" ++ o2.name, rfl, rfl⟩

/-- Counterexample to C6 as stated: a resource of the managed kind that is
present without a deletion timestamp does not keep `WaitCleanup` from
succeeding. -/
theorem waitCleanup_no_deletion_timestamp_counterexample :
    oscBase.deletionTimestamp = none ∧ oscBase ∈ [oscBase] ∧ oscBase.ns = vEmpty.ns ∧
    WaitCleanup vEmpty [oscBase] = .ok () :=
  ⟨rfl, List.mem_singleton.2 rfl, rfl, rfl⟩

def oscDT : OperatingSystemConfig :=
  { oscBase with
      name := "osc2"
      deletionTimestamp := some 1 }

/-- Witness for C6 at concrete stores. -/
theorem waitCleanup_spec_witness :
    (oscDT ∈ [oscDT]) ∧ oscDT.ns = vEmpty.ns ∧ oscDT.deletionTimestamp = some 1 ∧
    (∃ msg pre, WaitCleanup vEmpty [oscDT] = .error msg ∧ msg = pre ++ " is still present") ∧
    WaitCleanup vEmpty [] = .ok () :=
  ⟨List.mem_singleton.2 rfl, rfl, rfl,
    waitCleanup_spec.2.2 vEmpty [oscDT] oscDT 1 (List.mem_singleton.2 rfl) rfl rfl,
    waitCleanup_spec.1 vEmpty⟩

/-! ## Claim C7 -/

/-- C7: `Migrate` over an empty listing (the resources are already absent)
succeeds, and `WaitMigrate` fails with a message ending in
`is not Migrate=Succeeded` whenever some resource of the namespace does not
report a last operation of type `Migrate` in state `Succeeded`, regardless of
the other resources. -/
theorem migrate_spec :
    (∀ (v : Values) (now : Int), Migrate v now [] = .ok []) ∧
    ∀ (v : Values) (store : List OperatingSystemConfig) (o : OperatingSystemConfig),
      o ∈ store → o.ns = v.ns → migrateSucceeded o = false →
      ∃ msg pre, WaitMigrate v store = .error msg ∧
        msg = pre ++ " is not Migrate=Succeeded" := by
  refine ⟨fun _ _ => rfl, ?_⟩
  intro v store o hmem hns hfail
  unfold WaitMigrate
  cases hfind : (store.filter (fun o => o.ns == v.ns)).find?
      (fun o => !migrateSucceeded o) with
  | none =>
    exfalso
    rw [List.find?_eq_none] at hfind
    exact hfind o (List.mem_filter.2 ⟨hmem, by simp [hns]⟩) (by simp [hfail])
  | some o2 => exact ⟨_, o2.ns ++ "/" ++ o2.name, rfl, rfl⟩

def oscMigrated : OperatingSystemConfig :=
  { oscBase with
      name := "osc3"
      status := ⟨some ⟨some .migrate, .succeeded⟩, none, none, none, []⟩ }

/-- Witness for C7: the empty store migrates trivially, and one pending
resource among a successfully migrated one fails the migration wait. -/
theorem migrate_spec_witness :
    Migrate vEmpty 0 [] = .ok [] ∧
    (oscBase ∈ [oscMigrated, oscBase]) ∧ oscBase.ns = vEmpty.ns ∧
    migrateSucceeded oscBase = false ∧ migrateSucceeded oscMigrated = true ∧
    ∃ msg pre, WaitMigrate vEmpty [oscMigrated, oscBase] = .error msg ∧
      msg = pre ++ " is not Migrate=Succeeded" :=
  ⟨migrate_spec.1 vEmpty 0, by simp, rfl, by decide, by decide,
    migrate_spec.2 vEmpty [oscMigrated, oscBase] oscBase (by simp) rfl (by decide)⟩

/-! ## Claim C8 -/

/-- C8: the stale resource reaper deletes exactly the resource whose name is
outside the desired set and leaves every desired resource present and
unmodified. -/
theorem deleteStaleResources_spec (v : Values) (store : List OperatingSystemConfig)
    (staleO : OperatingSystemConfig)
    (hns : staleO.ns = v.ns)
    (hstale : staleO.name ∉ wantedOSCNames v)
    (hrest : ∀ o ∈ store, o = staleO ∨ o.name ∈ wantedOSCNames v)
    (hcount : store.count staleO = 1) :
    staleO ∉ DeleteStaleResources v store ∧
    (∀ o ∈ store, o.name ∈ wantedOSCNames v → o ∈ DeleteStaleResources v store) ∧
    (∀ o ∈ DeleteStaleResources v store, o ∈ store) ∧
    (DeleteStaleResources v store).length = store.length - 1 := by
  refine ⟨?_, ?_, ?_, ?_⟩
  · intro h
    have hp := (List.mem_filter.1 h).2
    simp [hns, hstale] at hp
  · intro o hmem hw
    exact List.mem_filter.2 ⟨hmem, by simp [hw]⟩
  · intro o h
    exact (List.mem_filter.1 h).1
  · unfold DeleteStaleResources
    have hsplit := List.length_eq_countP_add_countP
      (p := fun o => !(o.ns == v.ns) || decide (o.name ∈ wantedOSCNames v)) (l := store)
    have hnot : store.countP
        (fun o => ¬(!(o.ns == v.ns) || decide (o.name ∈ wantedOSCNames v))) = 1 := by
      rw [← hcount, List.count_eq_countP]
      apply List.countP_congr
      intro o hmem
      rcases hrest o hmem with h | h
      · subst h
        simp [hns, hstale]
      · constructor
        · intro hfalse
          simp [h] at hfalse
        · intro heq
          exfalso
          have : o = staleO := by simpa using heq
          subst this
          exact hstale h
    rw [← List.countP_eq_length_filter]
    omega

def staleOSC : OperatingSystemConfig := { oscBase with name := "new-name" }

def wantedD1 : OperatingSystemConfig := { oscBase with name := downloaderName kvW wk1 }

def wantedO1 : OperatingSystemConfig := { oscBase with name := originalName kvW wk1 }

def storeC8 : List OperatingSystemConfig := [staleOSC, wantedD1, wantedO1]

/-- Witness for C8 at a concrete store of one stale and two desired
resources. -/
theorem deleteStaleResources_spec_witness :
    staleOSC.ns = vW.ns ∧ staleOSC.name ∉ wantedOSCNames vW ∧
    (∀ o ∈ storeC8, o = staleOSC ∨ o.name ∈ wantedOSCNames vW) ∧
    storeC8.count staleOSC = 1 ∧
    (staleOSC ∉ DeleteStaleResources vW storeC8 ∧
      (∀ o ∈ storeC8, o.name ∈ wantedOSCNames vW → o ∈ DeleteStaleResources vW storeC8) ∧
      (∀ o ∈ DeleteStaleResources vW storeC8, o ∈ storeC8) ∧
      (DeleteStaleResources vW storeC8).length = storeC8.length - 1) :=
  ⟨rfl, by decide, by decide, by decide,
    deleteStaleResources_spec vW storeC8 staleOSC rfl (by decide) (by decide) (by decide)⟩

/-! ## Claims C2 and C4: readiness waiter -/

theorem getOSC_name (store : List OperatingSystemConfig) (rname : String)
    (o : OperatingSystemConfig) (h : getOSC store rname = some o) : o.name = rname := by
  have := List.find?_some h
  simpa using this

theorem firstFailureMsg_eq_none (l : List ResourceWaitOutcome) :
    firstFailureMsg l = none ↔ ∀ m, ResourceWaitOutcome.failed m ∉ l := by
  induction l with
  | nil => simp [firstFailureMsg]
  | cons hd tl ih =>
    cases hd with
    | failed m =>
      simp [firstFailureMsg]
      exact ⟨m, fun h => absurd rfl h⟩
    | missing => simp [firstFailureMsg, ih]
    | pending => simp [firstFailureMsg, ih]
    | noCloudConfig => simp [firstFailureMsg, ih]
    | ready => simp [firstFailureMsg, ih]

theorem firstFailureMsg_some_mem (l : List ResourceWaitOutcome) (m : String)
    (h : firstFailureMsg l = some m) : ResourceWaitOutcome.failed m ∈ l := by
  induction l with
  | nil => simp [firstFailureMsg] at h
  | cons hd tl ih =>
    cases hd with
    | failed m2 =>
      simp [firstFailureMsg] at h
      subst h
      exact List.mem_cons_self _ _
    | missing => exact List.mem_cons_of_mem _ (ih (by simpa [firstFailureMsg] using h))
    | pending => exact List.mem_cons_of_mem _ (ih (by simpa [firstFailureMsg] using h))
    | noCloudConfig => exact List.mem_cons_of_mem _ (ih (by simpa [firstFailureMsg] using h))
    | ready => exact List.mem_cons_of_mem _ (ih (by simpa [firstFailureMsg] using h))

theorem mem_failed_firstFailureMsg (l : List ResourceWaitOutcome) (m : String)
    (h : ResourceWaitOutcome.failed m ∈ l) : ∃ m2, firstFailureMsg l = some m2 := by
  cases hf : firstFailureMsg l with
  | some m2 => exact ⟨m2, rfl⟩
  | none => exact absurd h ((firstFailureMsg_eq_none l).1 hf m)

theorem wait_ok_outcomes (v : Values) (kv : SemVer) (stamps : List (String × Int))
    (store : List OperatingSystemConfig)
    (hv : v.kubernetesVersion = some kv)
    (hok : Wait v stamps store = .ok ()) :
    ∀ oc ∈ waitOutcomes v kv stamps store, oc = .ready := by
  have hW : Wait v stamps store = WaitCore v kv stamps store := by
    unfold Wait
    rw [hv]
  rw [hW] at hok
  unfold WaitCore at hok
  intro oc hoc
  cases hff : firstFailureMsg (waitOutcomes v kv stamps store) with
  | some m =>
    rw [hff] at hok
    simp at hok
  | none =>
    rw [hff] at hok
    by_cases h1 : ResourceWaitOutcome.missing ∈ waitOutcomes v kv stamps store
    · rw [if_pos h1] at hok
      simp at hok
    · rw [if_neg h1] at hok
      by_cases h2 : ResourceWaitOutcome.pending ∈ waitOutcomes v kv stamps store
      · rw [if_pos h2] at hok
        simp at hok
      · rw [if_neg h2] at hok
        by_cases h3 : ResourceWaitOutcome.noCloudConfig ∈ waitOutcomes v kv stamps store
        · rw [if_pos h3] at hok
          simp at hok
        · cases oc with
          | failed m => exact absurd hoc ((firstFailureMsg_eq_none _).1 hff m)
          | missing => exact absurd hoc h1
          | pending => exact absurd hoc h2
          | noCloudConfig => exact absurd hoc h3
          | ready => rfl

/-- C2: a tracked resource whose timestamp annotation parses to a time
strictly before the stamp recorded at deploy time keeps `Wait` from
succeeding, whatever the rest of its status and the other resources say. -/
theorem wait_stale_timestamp_not_succeed (v : Values) (stamps : List (String × Int))
    (store : List OperatingSystemConfig) (kv : SemVer) (w : Worker) (rname : String)
    (o : OperatingSystemConfig) (stamp t : Int) (s : String)
    (hv : v.kubernetesVersion = some kv) (hw : w ∈ v.workers)
    (hname : rname ∈ oscNames kv w)
    (ho : getOSC store rname = some o)
    (hstamp : lookupStamp stamps rname = some stamp)
    (hann : getAnn o.annotations gardenerTimestamp = some s)
    (hparse : parseTime s = some t)
    (hlt : t < stamp) :
    Wait v stamps store ≠ .ok () := by
  intro hok
  have hall := wait_ok_outcomes v kv stamps store hv hok
  have hmemname : rname ∈ (v.workers.map (oscNames kv)).flatten :=
    List.mem_flatten.2 ⟨oscNames kv w, List.mem_map_of_mem _ hw, hname⟩
  have hocmem : (match getOSC store rname with
      | none => ResourceWaitOutcome.missing
      | some o => checkOSCResource stamps o) ∈ waitOutcomes v kv stamps store :=
    List.mem_map_of_mem _ hmemname
  rw [ho] at hocmem
  have hready := hall _ hocmem
  have honame : o.name = rname := getOSC_name store rname o ho
  have hts : checkTimestamp stamps o = false := by
    simp only [checkTimestamp, honame, hstamp, hann, hparse]
    simp
    omega
  cases herr : o.status.lastError with
  | some d =>
    simp only [checkOSCResource, herr] at hready
    simp at hready
  | none =>
    simp only [checkOSCResource, herr, hts] at hready
    simp at hready

def oscStale : OperatingSystemConfig :=
  { oscBase with
      name := downloaderName kvW wk1
      annotations := [(gardenerTimestamp, timeToString 4)]
      status := ⟨some ⟨none, .succeeded⟩, none, some ⟨"cc-x", "test-namespace"⟩,
        some "foo-x", ["bar-x", "baz-x"]⟩ }

def stampsW : List (String × Int) := [(downloaderName kvW wk1, 5)]

/-- Witness for C2: a resource whose annotation timestamp parses one unit
before the recorded deploy stamp, with succeeded last operation and populated
secret reference, command and units, still fails the wait. -/
theorem wait_stale_timestamp_witness :
    vW.kubernetesVersion = some kvW ∧
    wk1 ∈ vW.workers ∧
    downloaderName kvW wk1 ∈ oscNames kvW wk1 ∧
    getOSC [oscStale] (downloaderName kvW wk1) = some oscStale ∧
    lookupStamp stampsW (downloaderName kvW wk1) = some 5 ∧
    getAnn oscStale.annotations gardenerTimestamp = some (timeToString 4) ∧
    parseTime (timeToString 4) = some 4 ∧
    (4 : Int) < 5 ∧
    oscStale.status.lastOperation = some ⟨none, .succeeded⟩ ∧
    oscStale.status.cloudConfigSecretRef.isSome = true ∧
    Wait vW stampsW [oscStale] ≠ .ok () :=
  ⟨rfl, by decide, by decide, by decide, by decide, by decide, by decide, by decide,
    rfl, rfl,
    wait_stale_timestamp_not_succeed vW stampsW [oscStale] kvW wk1
      (downloaderName kvW wk1) oscStale 5 4 (timeToString 4) rfl (by decide) (by decide)
      (by decide) (by decide) (by decide) (by decide) (by decide)⟩

theorem checkOSCResource_failed_inv (stamps : List (String × Int))
    (o : OperatingSystemConfig) (m : String)
    (h : checkOSCResource stamps o = .failed m) :
    ∃ d, o.status.lastError = some d ∧ m = "error during reconciliation: " ++ d := by
  cases herr : o.status.lastError with
  | some d =>
    refine ⟨d, rfl, ?_⟩
    simp only [checkOSCResource, herr] at h
    injection h with h2
    exact h2.symm
  | none =>
    exfalso
    simp only [checkOSCResource, herr] at h
    split at h
    · split at h
      · split at h
        · split at h <;> simp at h
        · simp at h
      · simp at h
    · simp at h

/-- C4: a tracked resource with a non-empty last-error description makes
`Wait` fail with a message of the form `error during reconciliation:
<description>` taken from a failing tracked resource, regardless of the other
resources. -/
theorem wait_lastError_fails (v : Values) (stamps : List (String × Int))
    (store : List OperatingSystemConfig) (kv : SemVer) (w : Worker) (rname : String)
    (o : OperatingSystemConfig) (desc : String)
    (hv : v.kubernetesVersion = some kv) (hw : w ∈ v.workers)
    (hname : rname ∈ oscNames kv w)
    (ho : getOSC store rname = some o)
    (herr : o.status.lastError = some desc) :
    ∃ msg, Wait v stamps store = .error msg ∧
      ∃ (rname2 : String) (o2 : OperatingSystemConfig) (desc2 : String),
        rname2 ∈ (v.workers.map (oscNames kv)).flatten ∧
        getOSC store rname2 = some o2 ∧ o2.status.lastError = some desc2 ∧
        msg = "error during reconciliation: " ++ desc2 := by
  have hmemname : rname ∈ (v.workers.map (oscNames kv)).flatten :=
    List.mem_flatten.2 ⟨oscNames kv w, List.mem_map_of_mem _ hw, hname⟩
  have hocmem : (match getOSC store rname with
      | none => ResourceWaitOutcome.missing
      | some o => checkOSCResource stamps o) ∈ waitOutcomes v kv stamps store :=
    List.mem_map_of_mem _ hmemname
  rw [ho] at hocmem
  have hocmem2 : checkOSCResource stamps o ∈ waitOutcomes v kv stamps store := hocmem
  have hfailed : checkOSCResource stamps o
      = .failed ("error during reconciliation: " ++ desc) := by
    simp only [checkOSCResource, herr]
  rw [hfailed] at hocmem2
  obtain ⟨m2, hff⟩ := mem_failed_firstFailureMsg _ _ hocmem2
  have hW : Wait v stamps store = .error m2 := by
    unfold Wait
    rw [hv]
    show WaitCore v kv stamps store = Except.error m2
    unfold WaitCore
    rw [hff]
  refine ⟨m2, hW, ?_⟩
  have hmem2 : ResourceWaitOutcome.failed m2 ∈ waitOutcomes v kv stamps store :=
    firstFailureMsg_some_mem _ _ hff
  obtain ⟨rname2, hrn2, heq⟩ := List.mem_map.1 hmem2
  cases ho2 : getOSC store rname2 with
  | none =>
    rw [ho2] at heq
    simp at heq
  | some o2 =>
    rw [ho2] at heq
    obtain ⟨d2, herr2, hm⟩ := checkOSCResource_failed_inv stamps o2 m2 heq
    exact ⟨rname2, o2, d2, hrn2, ho2, herr2, hm⟩

def oscFailing : OperatingSystemConfig :=
  { oscBase with
      name := downloaderName kvW wk1
      status := ⟨none, some "Some error", none, none, []⟩ }

/-- Witness for C4: one resource carrying a last error makes the wait fail
with the reconciliation error message. -/
theorem wait_lastError_fails_witness :
    vW.kubernetesVersion = some kvW ∧
    wk1 ∈ vW.workers ∧
    downloaderName kvW wk1 ∈ oscNames kvW wk1 ∧
    getOSC [oscFailing] (downloaderName kvW wk1) = some oscFailing ∧
    oscFailing.status.lastError = some "Some error" ∧
    ∃ msg, Wait vW [] [oscFailing] = .error msg ∧
      ∃ (rname2 : String) (o2 : OperatingSystemConfig) (desc2 : String),
        rname2 ∈ (vW.workers.map (oscNames kvW)).flatten ∧
        getOSC [oscFailing] rname2 = some o2 ∧ o2.status.lastError = some desc2 ∧
        msg = "error during reconciliation: " ++ desc2 :=
  ⟨rfl, by decide, by decide, by decide, rfl,
    wait_lastError_fails vW [] [oscFailing] kvW wk1 (downloaderName kvW wk1)
      oscFailing "Some error" rfl (by decide) (by decide) (by decide) rfl⟩

/-! ## Claim C5: result projector -/

theorem filterMap_eq_map_of_some {α β : Type} (f : α → Option β) (g : α → β)
    (l : List α) (h : ∀ x ∈ l, f x = some (g x)) : l.filterMap f = l.map g := by
  induction l with
  | nil => rfl
  | cons hd tl ih =>
    rw [List.filterMap_cons, h hd (List.mem_cons_self hd tl), List.map_cons,
      ih (fun x hx => h x (List.mem_cons_of_mem hd hx))]

theorem lookupByName_map (l : List Worker) (g : Worker → String × OperatingSystemConfigs)
    (hg : ∀ x, (g x).1 = x.name)
    (hnd : (l.map Worker.name).Nodup) (w : Worker) (hw : w ∈ l) :
    lookupByName (l.map g) w.name = some (g w).2 := by
  induction l with
  | nil => cases hw
  | cons hd tl ih =>
    by_cases heq : hd.name = w.name
    · rcases List.mem_cons.1 hw with rfl | h
      · unfold lookupByName
        rw [List.map_cons, List.find?_cons_of_pos _ (by simp [hg])]
        rfl
      · exfalso
        have hmem : w.name ∈ tl.map Worker.name := List.mem_map_of_mem _ h
        rw [← heq] at hmem
        exact (List.nodup_cons.1 hnd).1 hmem
    · have hwtl : w ∈ tl := by
        rcases List.mem_cons.1 hw with rfl | h
        · exact absurd rfl heq
        · exact h
      unfold lookupByName
      rw [List.map_cons, List.find?_cons_of_neg _ (by simp [hg, heq])]
      exact ih (List.nodup_cons.1 hnd).2 hwtl

/-- C5: when every worker pool's resource pair and secrets resolve, the
projected map has exactly one entry per worker pool, keyed by pool name, and
each entry's downloader and original data carry the secret bytes, command and
unit list of the corresponding resource. -/
theorem workerMap_spec (v : Values) (store : List OperatingSystemConfig)
    (secrets : List Secret) (kv : SemVer)
    (hv : v.kubernetesVersion = some kv)
    (hnd : (v.workers.map Worker.name).Nodup)
    (hall : ∀ w ∈ v.workers, (workerData store secrets kv w).isSome) :
    (WorkerNameToOperatingSystemConfigsMap v store secrets).length = v.workers.length ∧
    (WorkerNameToOperatingSystemConfigsMap v store secrets).map Prod.fst
      = v.workers.map Worker.name ∧
    ∀ w ∈ v.workers, ∀ (dosc oosc : OperatingSystemConfig) (dc oc : String),
      getOSC store (downloaderName kv w) = some dosc →
      getOSC store (originalName kv w) = some oosc →
      resolvedContent secrets dosc = some dc →
      resolvedContent secrets oosc = some oc →
      lookupByName (WorkerNameToOperatingSystemConfigsMap v store secrets) w.name
        = some ⟨⟨dc, dosc.status.command, dosc.status.units⟩,
            ⟨oc, oosc.status.command, oosc.status.units⟩⟩ := by
  have hfg : ∀ w ∈ v.workers,
      (workerData store secrets kv w).map (fun d => (w.name, d)) =
        some ((fun w => (w.name,
          (workerData store secrets kv w).getD ⟨⟨"", none, []⟩, ⟨"", none, []⟩⟩)) w) := by
    intro w hw
    cases hwd : workerData store secrets kv w with
    | some d => simp [hwd]
    | none => exact absurd (hall w hw) (by simp [hwd])
  have hMap : WorkerNameToOperatingSystemConfigsMap v store secrets
      = v.workers.map (fun w => (w.name,
          (workerData store secrets kv w).getD ⟨⟨"", none, []⟩, ⟨"", none, []⟩⟩)) := by
    unfold WorkerNameToOperatingSystemConfigsMap
    rw [hv]
    exact filterMap_eq_map_of_some _ _ v.workers hfg
  refine ⟨by rw [hMap, List.length_map], ?_, ?_⟩
  · rw [hMap, List.map_map]
    rfl
  · intro w hw dosc oosc dc oc hd ho hdc hoc
    have hwd : workerData store secrets kv w
        = some ⟨⟨dc, dosc.status.command, dosc.status.units⟩,
            ⟨oc, oosc.status.command, oosc.status.units⟩⟩ := by
      simp only [workerData, hd, ho, extractOSCData, hdc, hoc]
    have hlk := lookupByName_map v.workers
      (fun w => (w.name,
        (workerData store secrets kv w).getD ⟨⟨"", none, []⟩, ⟨"", none, []⟩⟩))
      (fun _ => rfl) hnd w hw
    rw [hMap, hlk]
    simp [hwd]

def readyOSC (rname : String) : OperatingSystemConfig :=
  { oscBase with
      name := rname
      status := ⟨some ⟨none, .succeeded⟩, none, some ⟨"cc-" ++ rname, rname⟩,
        some ("foo-" ++ rname), ["bar-" ++ rname, "baz-" ++ rname]⟩ }

def ccSecret (rname : String) : Secret :=
  ⟨"cc-" ++ rname, rname, [("cloud_config", "foobar-" ++ rname)]⟩

def storeC5 : List OperatingSystemConfig :=
  [readyOSC (downloaderName kvW wk1), readyOSC (originalName kvW wk1),
    readyOSC (downloaderName kvW wk2), readyOSC (originalName kvW wk2)]

def secretsC5 : List Secret :=
  [ccSecret (downloaderName kvW wk1), ccSecret (originalName kvW wk1),
    ccSecret (downloaderName kvW wk2), ccSecret (originalName kvW wk2)]

/-- Witness for C5 at two ready worker pools backed by populated secrets. -/
theorem workerMap_spec_witness :
    vW.kubernetesVersion = some kvW ∧
    (vW.workers.map Worker.name).Nodup ∧
    (∀ w ∈ vW.workers, (workerData storeC5 secretsC5 kvW w).isSome) ∧
    ((WorkerNameToOperatingSystemConfigsMap vW storeC5 secretsC5).length
        = vW.workers.length ∧
      (WorkerNameToOperatingSystemConfigsMap vW storeC5 secretsC5).map Prod.fst
        = vW.workers.map Worker.name ∧
      ∀ w ∈ vW.workers, ∀ (dosc oosc : OperatingSystemConfig) (dc oc : String),
        getOSC storeC5 (downloaderName kvW w) = some dosc →
        getOSC storeC5 (originalName kvW w) = some oosc →
        resolvedContent secretsC5 dosc = some dc →
        resolvedContent secretsC5 oosc = some oc →
        lookupByName (WorkerNameToOperatingSystemConfigsMap vW storeC5 secretsC5) w.name
          = some ⟨⟨dc, dosc.status.command, dosc.status.units⟩,
              ⟨oc, oosc.status.command, oosc.status.units⟩⟩) :=
  ⟨rfl, by decide, by decide,
    workerMap_spec vW storeC5 secretsC5 kvW rfl (by decide) (by decide)⟩

/-! ## Claim C1: deploy orchestrator -/

def flatPairs : List (OperatingSystemConfig × OperatingSystemConfig) →
    List OperatingSystemConfig
  | [] => []
  | p :: ps => p.1 :: p.2 :: flatPairs ps

theorem buildWorkerOSCs_ok_inv (dlFn : DownloaderConfigFn) (origFn : OriginalConfigFn)
    (v : Values) (kv : SemVer) (now : Int) (w : Worker) (d o : OperatingSystemConfig)
    (h : buildWorkerOSCs dlFn origFn v kv now w = .ok (d, o)) :
    ∃ dOut oOut, dlFn (Key w.name (some kv)) v.apiServerURL = .ok dOut ∧
      origFn (mkComponentsContext v kv w) = .ok oOut ∧
      d = mkDownloaderOSC v kv w now dOut ∧ o = mkOriginalOSC v kv w now dOut oOut := by
  unfold buildWorkerOSCs at h
  split at h
  · simp at h
  · rename_i dOut hdl
    split at h
    · simp at h
    · rename_i oOut horig
      simp at h
      exact ⟨dOut, oOut, hdl, horig, h.1.symm, h.2.symm⟩

theorem mem_flatPairs (p : OperatingSystemConfig × OperatingSystemConfig)
    (ps : List (OperatingSystemConfig × OperatingSystemConfig)) (hp : p ∈ ps) :
    p.1 ∈ flatPairs ps ∧ p.2 ∈ flatPairs ps := by
  induction ps with
  | nil => cases hp
  | cons hd tl ih =>
    rcases List.mem_cons.1 hp with rfl | h
    · constructor <;> simp [flatPairs]
    · have := ih h
      constructor <;> simp [flatPairs, this.1, this.2]

theorem upsert_not_mem (s : List OperatingSystemConfig) (o : OperatingSystemConfig)
    (h : o.name ∉ s.map OperatingSystemConfig.name) : upsertOSC s o = s ++ [o] := by
  unfold upsertOSC
  rw [if_neg]
  intro hc
  rw [List.any_eq_true] at hc
  obtain ⟨x, hx, hxe⟩ := hc
  rw [beq_iff_eq] at hxe
  exact h (hxe ▸ List.mem_map_of_mem _ hx)

theorem applyPairs_append (ps : List (OperatingSystemConfig × OperatingSystemConfig)) :
    ∀ store : List OperatingSystemConfig,
      ((flatPairs ps).map OperatingSystemConfig.name).Nodup →
      (∀ n ∈ (flatPairs ps).map OperatingSystemConfig.name,
        n ∉ store.map OperatingSystemConfig.name) →
      applyPairs store ps = store ++ flatPairs ps := by
  induction ps with
  | nil =>
    intro store _ _
    simp [applyPairs, flatPairs]
  | cons hd tl ih =>
    intro store hnd hdisj
    have hnames : (flatPairs (hd :: tl)).map OperatingSystemConfig.name
        = hd.1.name :: hd.2.name :: (flatPairs tl).map OperatingSystemConfig.name := by
      simp [flatPairs]
    rw [hnames] at hnd hdisj
    have hne12 : hd.1.name ≠ hd.2.name := by
      intro he
      exact (List.nodup_cons.1 hnd).1 (he ▸ List.mem_cons_self _ _)
    have h1 : hd.1.name ∉ store.map OperatingSystemConfig.name :=
      hdisj _ (List.mem_cons_self _ _)
    have hu1 : upsertOSC store hd.1 = store ++ [hd.1] := upsert_not_mem _ _ h1
    have h2 : hd.2.name ∉ (store ++ [hd.1]).map OperatingSystemConfig.name := by
      rw [List.map_append]
      intro hmem
      rcases List.mem_append.1 hmem with hm | hm
      · exact hdisj hd.2.name (List.mem_cons_of_mem _ (List.mem_cons_self _ _)) hm
      · simp at hm
        exact hne12 hm.symm
    have hu2 : upsertOSC (store ++ [hd.1]) hd.2 = store ++ [hd.1] ++ [hd.2] :=
      upsert_not_mem _ _ h2
    have hnd2 : ((flatPairs tl).map OperatingSystemConfig.name).Nodup :=
      (List.nodup_cons.1 (List.nodup_cons.1 hnd).2).2
    have hdisj2 : ∀ n ∈ (flatPairs tl).map OperatingSystemConfig.name,
        n ∉ (store ++ [hd.1] ++ [hd.2]).map OperatingSystemConfig.name := by
      intro n hn
      rw [List.map_append, List.map_append]
      intro hmem
      rcases List.mem_append.1 hmem with hm | hm
      · rcases List.mem_append.1 hm with hm2 | hm2
        · exact hdisj n (List.mem_cons_of_mem _ (List.mem_cons_of_mem _ hn)) hm2
        · simp at hm2
          exact (List.nodup_cons.1 hnd).1
            (hm2 ▸ List.mem_cons_of_mem _ hn)
      · simp at hm
        exact (List.nodup_cons.1 (List.nodup_cons.1 hnd).2).1 (hm ▸ hn)
    show applyPairs (upsertOSC (upsertOSC store hd.1) hd.2) tl = _
    rw [hu1, hu2, ih (store ++ [hd.1] ++ [hd.2]) hnd2 hdisj2]
    simp [flatPairs]

theorem buildAllOSCs_inv (dlFn : DownloaderConfigFn) (origFn : OriginalConfigFn)
    (v : Values) (kv : SemVer) (now : Int) :
    ∀ (ws : List Worker) (pairs : List (OperatingSystemConfig × OperatingSystemConfig)),
      buildAllOSCs dlFn origFn v kv now ws = .ok pairs →
      (flatPairs pairs).map OperatingSystemConfig.name = (ws.map (oscNames kv)).flatten ∧
      ∀ w ∈ ws, ∃ dOut oOut,
        dlFn (Key w.name (some kv)) v.apiServerURL = .ok dOut ∧
        origFn (mkComponentsContext v kv w) = .ok oOut ∧
        (mkDownloaderOSC v kv w now dOut, mkOriginalOSC v kv w now dOut oOut) ∈ pairs := by
  intro ws
  induction ws with
  | nil =>
    intro pairs h
    simp [buildAllOSCs] at h
    subst h
    exact ⟨by simp [flatPairs], by simp⟩
  | cons w ws2 ih =>
    intro pairs h
    unfold buildAllOSCs at h
    split at h
    · simp at h
    · rename_i p hbw
      split at h
      · simp at h
      · rename_i ps hball
        simp at h
        subst h
        obtain ⟨p1, p2⟩ := p
        obtain ⟨dOut, oOut, hdl, horig, hd, ho⟩ :=
          buildWorkerOSCs_ok_inv dlFn origFn v kv now w p1 p2 hbw
        obtain ⟨hnames, hmem⟩ := ih ps hball
        subst hd
        subst ho
        refine ⟨?_, ?_⟩
        · simp [flatPairs, hnames, oscNames, mkDownloaderOSC, mkOriginalOSC]
        · intro w2 hw2
          rcases List.mem_cons.1 hw2 with rfl | h2
          · exact ⟨dOut, oOut, hdl, horig, List.mem_cons_self _ _⟩
          · obtain ⟨a, b, c2, d2, e2⟩ := hmem w2 h2
            exact ⟨a, b, c2, d2, List.mem_cons_of_mem _ e2⟩

theorem getOSC_of_mem_nodup (l : List OperatingSystemConfig) (x : OperatingSystemConfig)
    (hnd : (l.map OperatingSystemConfig.name).Nodup) (hx : x ∈ l) :
    getOSC l x.name = some x := by
  induction l with
  | nil => cases hx
  | cons hd tl ih =>
    rcases List.mem_cons.1 hx with rfl | h
    · unfold getOSC
      rw [List.find?_cons_of_pos _ (by simp)]
    · have hne : hd.name ≠ x.name := by
        intro he
        exact (List.nodup_cons.1 hnd).1 (he ▸ List.mem_map_of_mem _ h)
      unfold getOSC
      rw [List.find?_cons_of_neg _ (by simp [hne])]
      exact ih (List.nodup_cons.1 hnd).2 h

theorem flatten_oscNames_length (kv : SemVer) (ws : List Worker) :
    ((ws.map (oscNames kv)).flatten).length = 2 * ws.length := by
  induction ws with
  | nil => simp
  | cons hd tl ih =>
    simp [oscNames] at ih ⊢
    omega

/-- C1: after a successful `Deploy` on an empty store, the resulting store
holds exactly the per-pool name pairs `<key>-downloader` / `<key>-original`
(two resources for each desired worker pool), each carrying the `reconcile`
directive and the timestamp annotation stamped with the deploy-time clock
value, and each original resource's files are the original generator's files,
the downloader's files, then the one synthesized activation-unit file
(base64 content, fixed path, permission bits `0644`). -/
theorem deploy_spec (dlFn : DownloaderConfigFn) (origFn : OriginalConfigFn)
    (v : Values) (kv : SemVer) (now : Int) (store2 : List OperatingSystemConfig)
    (hv : v.kubernetesVersion = some kv)
    (hnd : ((v.workers.map (oscNames kv)).flatten).Nodup)
    (hdep : Deploy dlFn origFn v now [] = .ok store2) :
    store2.map OperatingSystemConfig.name = (v.workers.map (oscNames kv)).flatten ∧
    store2.length = 2 * v.workers.length ∧
    ∀ w ∈ v.workers, ∃ dOut oOut,
      dlFn (Key w.name (some kv)) v.apiServerURL = .ok dOut ∧
      origFn (mkComponentsContext v kv w) = .ok oOut ∧
      getOSC store2 (downloaderName kv w) = some (mkDownloaderOSC v kv w now dOut) ∧
      getOSC store2 (originalName kv w) = some (mkOriginalOSC v kv w now dOut oOut) ∧
      getAnn (mkDownloaderOSC v kv w now dOut).annotations gardenerOperation
        = some operationReconcile ∧
      getAnn (mkDownloaderOSC v kv w now dOut).annotations gardenerTimestamp
        = some (timeToString now) ∧
      getAnn (mkOriginalOSC v kv w now dOut oOut).annotations gardenerOperation
        = some operationReconcile ∧
      getAnn (mkOriginalOSC v kv w now dOut oOut).annotations gardenerTimestamp
        = some (timeToString now) ∧
      (mkOriginalOSC v kv w now dOut oOut).files
        = oOut.2 ++ dOut.2 ++ ccdFiles dOut.1 ∧
      ∀ c, ccdUnitContentOf dOut.1 = some c →
        ccdFiles dOut.1 = [⟨ccdFilePath, some 0o644, some ⟨"b64", encodeBase64 c⟩⟩] := by
  unfold Deploy at hdep
  rw [hv] at hdep
  have hdep2 : (match buildAllOSCs dlFn origFn v kv now v.workers with
      | .error e => Except.error e
      | .ok pairs => Except.ok (applyPairs [] pairs)) = .ok store2 := hdep
  cases hball : buildAllOSCs dlFn origFn v kv now v.workers with
  | error e =>
    rw [hball] at hdep2
    simp at hdep2
  | ok pairs =>
    rw [hball] at hdep2
    simp at hdep2
    obtain ⟨hnames, hmem⟩ := buildAllOSCs_inv dlFn origFn v kv now v.workers pairs hball
    have hndp : ((flatPairs pairs).map OperatingSystemConfig.name).Nodup := by
      rw [hnames]
      exact hnd
    have happ : applyPairs [] pairs = flatPairs pairs := by
      have h := applyPairs_append pairs [] hndp (by intro n _; simp)
      simpa using h
    have hstore : store2 = flatPairs pairs := by
      rw [← hdep2, happ]
    subst hstore
    refine ⟨hnames, ?_, ?_⟩
    · have hlen : (flatPairs pairs).length
          = ((flatPairs pairs).map OperatingSystemConfig.name).length :=
        (List.length_map _ _).symm
      rw [hlen, hnames, flatten_oscNames_length]
    · intro w hw
      obtain ⟨dOut, oOut, hdl, horig, hpmem⟩ := hmem w hw
      have hm := mem_flatPairs _ _ hpmem
      refine ⟨dOut, oOut, hdl, horig, ?_, ?_, rfl, rfl, rfl, rfl, rfl, ?_⟩
      · exact getOSC_of_mem_nodup (flatPairs pairs)
          (mkDownloaderOSC v kv w now dOut) hndp hm.1
      · exact getOSC_of_mem_nodup (flatPairs pairs)
          (mkOriginalOSC v kv w now dOut oOut) hndp hm.2
      · intro c hc
        simp only [ccdFiles, hc]

def dlFnW : DownloaderConfigFn := fun key apiURL =>
  .ok ([⟨key, none⟩, ⟨ccdUnitName, some "ccd-unit-content"⟩], [⟨apiURL, none, none⟩])

def origFnW : OriginalConfigFn := fun cctx =>
  .ok ([⟨cctx.clusterDNSAddress, none⟩, ⟨cctx.criName, none⟩],
    [⟨cctx.kubeletCACertificate, none, none⟩])

def c1Store : List OperatingSystemConfig :=
  match Deploy dlFnW origFnW vW 7 [] with
  | .ok s => s
  | .error _ => []

/-- Witness for C1: deploying two concrete worker pools with concrete
generators yields the expected resource pairs. -/
theorem deploy_spec_witness :
    vW.kubernetesVersion = some kvW ∧
    ((vW.workers.map (oscNames kvW)).flatten).Nodup ∧
    Deploy dlFnW origFnW vW 7 [] = .ok c1Store ∧
    (c1Store.map OperatingSystemConfig.name = (vW.workers.map (oscNames kvW)).flatten ∧
      c1Store.length = 2 * vW.workers.length ∧
      ∀ w ∈ vW.workers, ∃ dOut oOut,
        dlFnW (Key w.name (some kvW)) vW.apiServerURL = .ok dOut ∧
        origFnW (mkComponentsContext vW kvW w) = .ok oOut ∧
        getOSC c1Store (downloaderName kvW w) = some (mkDownloaderOSC vW kvW w 7 dOut) ∧
        getOSC c1Store (originalName kvW w) = some (mkOriginalOSC vW kvW w 7 dOut oOut) ∧
        getAnn (mkDownloaderOSC vW kvW w 7 dOut).annotations gardenerOperation
          = some operationReconcile ∧
        getAnn (mkDownloaderOSC vW kvW w 7 dOut).annotations gardenerTimestamp
          = some (timeToString 7) ∧
        getAnn (mkOriginalOSC vW kvW w 7 dOut oOut).annotations gardenerOperation
          = some operationReconcile ∧
        getAnn (mkOriginalOSC vW kvW w 7 dOut oOut).annotations gardenerTimestamp
          = some (timeToString 7) ∧
        (mkOriginalOSC vW kvW w 7 dOut oOut).files
          = oOut.2 ++ dOut.2 ++ ccdFiles dOut.1 ∧
        ∀ c, ccdUnitContentOf dOut.1 = some c →
          ccdFiles dOut.1 = [⟨ccdFilePath, some 0o644, some ⟨"b64", encodeBase64 c⟩⟩]) :=
  ⟨rfl, by decide, rfl, deploy_spec dlFnW origFnW vW kvW 7 c1Store rfl (by decide) rfl⟩
